import Mathlib

/-!
Verification development for the `linkedin/profile_parser.py` profile scraper.

The scraper wraps one parsed HTML document (a BeautifulSoup tree) and exposes
accessor rules that locate markup by class / id / attribute patterns and reduce
the matched nodes to strings, lists or numbers.  We embed the document as an
inductive tree of element and text nodes, give the BeautifulSoup operations the
scraper uses their library semantics (`find` / `find_all` with class matching,
`.string`, `.strings`, `.parent`, `get_attribute_list`), translate every
accessor body, and model the attribute-based caching decorator as explicit
state passing.  Python exceptions are modelled with an error type.
-/

/-- Python exceptions the scraper can raise, by kind and message. -/
inductive PyError where
  | typeError (msg : String)
  | attributeError (msg : String)
  | indexError (msg : String)
deriving Repr, DecidableEq

mutual
/-- A node of the parsed HTML document: either a bare text fragment
(a `NavigableString`) or an element with tag name, optional `id` attribute,
optional whitespace-split `class` token list, remaining attributes, and
children in document order. -/
inductive Node where
  | text (s : String)
  | elem (tag : String) (idAttr : Option String) (classes : Option (List String))
      (attrs : List (String × String)) (children : NodeList)

/-- A sequence of sibling nodes (kept as a twin type of `Node` so that the
tree-walking functions below are structurally recursive). -/
inductive NodeList where
  | nil
  | cons (hd : Node) (tl : NodeList)
end

/-- Build a `NodeList` from an ordinary list of nodes. -/
def toNL : List Node → NodeList
  | [] => .nil
  | n :: l => .cons n (toNL l)

/-- Look up a plain (non-multi-valued) attribute of an element. -/
def Node.getAttr (n : Node) (key : String) : Option String :=
  match n with
  | .text _ => none
  | .elem _ _ _ attrs _ => attrs.lookup key

/-- BeautifulSoup class matching: a query string matches a tag when the tag has
a `class` attribute and the query is one of its tokens, or the query equals the
tokens joined by single spaces (how bs4 matches composite class strings). -/
def matchesClass (q : String) (n : Node) : Bool :=
  match n with
  | .text _ => false
  | .elem _ _ (some cs) _ _ => cs.contains q || q == String.intercalate " " cs
  | .elem _ _ none _ _ => false

/-- Membership test of one token in a tag's `class` token list, the semantics
of Python's `tok in tag.get_attribute_list('class')` (an absent attribute
gives `[None]`, which contains no string). -/
def hasClassToken (tok : String) (n : Node) : Bool :=
  match n with
  | .text _ => false
  | .elem _ _ (some cs) _ _ => cs.contains tok
  | .elem _ _ none _ _ => false

/-- Helper of the traversals below: the singleton of an element node, the
empty list for a text node. -/
def elemOnly (n : Node) : List Node :=
  match n with
  | .text _ => []
  | .elem _ _ _ _ _ => [n]

mutual
/-- All element descendants of a node in document (pre-)order, excluding the
node itself — the search space of BeautifulSoup's `find` / `find_all`. -/
def subElems : Node → List Node
  | .text _ => []
  | .elem _ _ _ _ cs => subElemsList cs

/-- The lift of `subElems` to a sequence of sibling subtrees: each element
sibling followed by its own descendants. -/
def subElemsList : NodeList → List Node
  | .nil => []
  | .cons hd tl => elemOnly hd ++ subElems hd ++ subElemsList tl
end

mutual
/-- All text fragments inside a node's subtree in document order — the
semantics of BeautifulSoup's `.strings` generator. -/
def stringsOf : Node → List String
  | .text s => [s]
  | .elem _ _ _ _ cs => stringsOfList cs

/-- The lift of `stringsOf` to a sequence of sibling subtrees. -/
def stringsOfList : NodeList → List String
  | .nil => []
  | .cons hd tl => stringsOf hd ++ stringsOfList tl
end

/-- Helper of `elemParents`: the pair of an element node with its parent,
nothing for a text node. -/
def elemPair (par n : Node) : List (Node × Node) :=
  match n with
  | .text _ => []
  | .elem _ _ _ _ _ => [(n, par)]

mutual
/-- Every element descendant of a node paired with its parent element, in
document order; used to model BeautifulSoup's `.parent` accessor on the
results of a `find_all`. -/
def elemParents : Node → List (Node × Node)
  | .text _ => []
  | .elem t i cl a cs => elemParentsList (.elem t i cl a cs) cs

/-- The lift of `elemParents` to a sequence of sibling subtrees below the
parent `par`. -/
def elemParentsList (par : Node) : NodeList → List (Node × Node)
  | .nil => []
  | .cons hd tl => elemPair par hd ++ elemParents hd ++ elemParentsList par tl
end

mutual
/-- BeautifulSoup's `.string` property: a text node is its own string; an
element with exactly one child takes that child's string recursively; any
other element (no children, or several) has string `None`. -/
def nodeString : Node → Option String
  | .text s => some s
  | .elem _ _ _ _ cs => nodeStringList cs

/-- The dispatch of `nodeString` on an element's children: only a singleton
child contributes a string. -/
def nodeStringList : NodeList → Option String
  | .cons c .nil => nodeString c
  | _ => none
end

/-- Semantics of `soup.find(class_=q)`: first element of the document matching
class `q`. -/
def findClass (q : String) (root : Node) : Option Node :=
  (subElems root).find? (matchesClass q)

/-- Semantics of `soup.find_all(class_=q)`: all elements matching class `q`,
in document order. -/
def findAllClass (q : String) (root : Node) : List Node :=
  (subElems root).filter (matchesClass q)

/-- Semantics of `soup.find(id=q)`: first element whose `id` attribute is `q`. -/
def findId (q : String) (root : Node) : Option Node :=
  (subElems root).find? (fun n =>
    match n with
    | .text _ => false
    | .elem _ i _ _ _ => i == some q)

/-- Semantics of `soup.find(attrs=\x7bkey: val\x7d)`: first element carrying
the exact attribute/value pair. -/
def findAttrEq (key val : String) (root : Node) : Option Node :=
  (subElems root).find? (fun n => n.getAttr key == some val)

/--
Translation of `Profile.name` (profile_parser.py lines 54-73): try the
composite-class top-card element and return its `.string`; otherwise try the
element with `id="name"` and return its `.string`; otherwise raise
`TypeError("Name not found in profile HTML")`.
-/
def Profile.name (soup : Node) : Except PyError (Option String) :=
  match findClass "pv-top-card-section__name Sans-26px-black-85%" soup with
  | some n => .ok (nodeString n)
  | none =>
      match findId "name" soup with
      | some n => .ok (nodeString n)
      | none => .error (.typeError "Name not found in profile HTML")

/-- Python `str.isdigit()` on our ASCII model: non-empty and all characters
decimal digits. -/
def pyIsDigit (s : String) : Bool :=
  !s.isEmpty && s.toList.all Char.isDigit

/-- Python `int(s)` on a digit string: its decimal value. -/
def pyInt (s : String) : Nat :=
  s.toList.foldl (fun a c => a * 10 + (c.toNat - 48)) 0

/-- Python `s.split(sep, 1)`: split at the first occurrence of `sep` only. -/
def pySplitOnce (s sep : String) : List String :=
  match s.splitOn sep with
  | [] => [s]
  | [x] => [x]
  | x :: rest => [x, String.intercalate sep rest]

/-- The candidate elements scanned by `Profile.skills` (lines 85-87): all
elements of the primary skill-name class, or, when there are none, all
elements of the plain `skill` class. -/
def skillsCandidates (soup : Node) : List Node :=
  let primary := findAllClass "pv-skill-entity__skill-name" soup
  if primary.length == 0 then findAllClass "skill" soup else primary

/-- The skip test of the skills loop (lines 94-97): drop a candidate whose
class tokens contain `see-more` or `see-less`, or that contains a nested
element matching class `skill see-more`. -/
def keepSkill (n : Node) : Bool :=
  !hasClassToken "see-more" n && !hasClassToken "see-less" n
    && (findAllClass "skill see-more" n).isEmpty

/-- Python `str.lower()` on one character of our ASCII model. -/
def pyCharLower (c : Char) : Char :=
  if 65 ≤ c.toNat ∧ c.toNat ≤ 90 then Char.ofNat (c.toNat + 32) else c

/-- Python `str.lower()` on our ASCII model: lowercase every character. -/
def pyLower (s : String) : String :=
  String.mk (s.toList.map pyCharLower)

/-- Python `str.strip()`: drop leading and trailing whitespace. -/
def pyStrip (s : String) : String :=
  String.mk ((((s.toList.dropWhile Char.isWhitespace).reverse).dropWhile
    Char.isWhitespace).reverse)

/-- Translation of `skill.string.lower().strip()` (lines 99-100); raises
`AttributeError` when `.string` is `None`. -/
def sanitizeSkill (n : Node) : Except PyError String :=
  match nodeString n with
  | some s => .ok (pyStrip (pyLower s))
  | none => .error (.attributeError "NoneType object has no attribute lower")

/-- The candidate loop of `Profile.skills` (lines 90-103). -/
def skillsLoop : List Node → Except PyError (List String)
  | [] => .ok []
  | skill :: rest =>
      if keepSkill skill then
        match sanitizeSkill skill with
        | .ok s =>
            match skillsLoop rest with
            | .ok tail => .ok (s :: tail)
            | .error e => .error e
        | .error e => .error e
      else skillsLoop rest

/--
Translation of `Profile.skills` (lines 75-103): scan the candidates, skip
see-more/see-less entries, collect each remaining candidate's string
lowercased and stripped.
-/
def Profile.skills (soup : Node) : Except PyError (List String) :=
  skillsLoop (skillsCandidates soup)

/-- The predicate of `find_all('link', rel="canonical", href=True)`
(line 112). -/
def isCanonicalLink (n : Node) : Bool :=
  match n with
  | .text _ => false
  | .elem t _ _ _ _ =>
      t == "link" && n.getAttr "rel" == some "canonical" && (n.getAttr "href").isSome

/--
Translation of `Profile.username` (lines 105-115): take the first canonical
`link` element's `href` and return the part after `"/in/"`.  An empty result
list makes `url_links[0]` raise `IndexError`; an `href` not containing
`"/in/"` makes `split("/in/", 1)[1]` raise `IndexError`.
-/
def Profile.username (soup : Node) : Except PyError String :=
  match (subElems soup).filter isCanonicalLink with
  | [] => .error (.indexError "list index out of range")
  | l :: _ =>
      match l.getAttr "href" with
      | none => .error (.typeError "unreachable: href filtered to be present")
      | some href =>
          match pySplitOnce href "/in/" with
          | _ :: u :: _ => .ok u
          | _ => .error (.indexError "list index out of range")

/-- Translation of `Profile.location` (lines 117-124): the `locality`
element's string, or `None` when the element (or its single string) is
absent. -/
def Profile.location (soup : Node) : Option String :=
  match findClass "locality" soup with
  | some t => nodeString t
  | none => none

/-- Translation of `Profile.all_companies` (lines 155-172): inside the
`positions` container, every `item-subtitle` element's string (possibly
`None`), document order; empty list when the container is absent. -/
def Profile.all_companies (soup : Node) : List (Option String) :=
  match findClass "positions" soup with
  | none => []
  | some exp => (findAllClass "item-subtitle" exp).map nodeString

/--
Translation of `Profile.current_company` (lines 126-153): if a `data-section=
"currentPositionsDetails"` element exists, return its `org` descendant's
string (an absent `org` descendant makes `.string` on `None` raise
`AttributeError`); else the first entry of `all_companies` when non-empty;
else the `headline title` element's string when present; else `None`.
-/
def Profile.current_company (soup : Node) : Except PyError (Option String) :=
  match findAttrEq "data-section" "currentPositionsDetails" soup with
  | some companyTag =>
      match findClass "org" companyTag with
      | some org => .ok (nodeString org)
      | none => .error (.attributeError "NoneType object has no attribute string")
  | none =>
      match Profile.all_companies soup with
      | c :: _ => .ok c
      | [] =>
          match findClass "headline title" soup with
          | some h => .ok (nodeString h)
          | none => .ok none

/-- The fragment scan of `Profile.connection_count` (lines 188-194): a digit
fragment overwrites the accumulator with its value, a literal `"500+"`
overwrites it with 500. -/
def connFold (fragments : List String) : Nat :=
  fragments.foldl (fun cons s =>
    if pyIsDigit s then pyInt s
    else if s == "500+" then 500
    else cons) 0

/-- Translation of `Profile.connection_count` (lines 174-196): `None` when
there is no `member-connections` element, otherwise the fragment scan over all
text fragments inside it (0 when nothing matches). -/
def Profile.connection_count (soup : Node) : Option Nat :=
  match findClass "member-connections" soup with
  | none => none
  | some conn => some (connFold (stringsOf conn))

/-- The return value of `get_media_number`: Python returns the string `""`
when the subheadline element is absent and an `int` otherwise. -/
inductive StrOrNat where
  | str (s : String)
  | num (n : Nat)
deriving Repr, DecidableEq

/-- The digit scan of `get_media_number` (lines 227-231): left-to-right over
the characters, `media_num = media_num * 10 + int(character)` on digits,
everything else ignored. -/
def mediaFold (s : String) : Nat :=
  s.toList.foldl (fun v c => if c.isDigit then v * 10 + (c.toNat - 48) else v) 0

/-- Translation of `Profile.get_media_number` (lines 218-233): the empty
string when the subheadline element is absent; otherwise the digit scan of its
string (iterating over `None` when the element has no single string raises
`TypeError`). -/
def Profile.get_media_number (soup : Node) : Except PyError StrOrNat :=
  match findClass "pv-treasury-carousel__subheadline" soup with
  | none => .ok (.str "")
  | some t =>
      match nodeString t with
      | none => .error (.typeError "NoneType object is not iterable")
      | some s => .ok (.num (mediaFold s))

/-- The accomplishments container lookup shared by the accomplishments
family (e.g. lines 242-244): two alternate class spellings tried in order. -/
def findAccomp (soup : Node) : Option Node :=
  match findClass "pv-profile-section artdeco-container-card pv-accomplishments-section ember-view" soup with
  | some t => some t
  | none => findClass "pv-profile-section pv-accomplishments-section artdeco-container-card ember-view" soup

/-- The shared body of the accomplishments family (e.g. lines 246-252): on an
absent container, `accomp_tag.find_all` raises `AttributeError`; otherwise
find the first title block whose string is one of the recognized labels and
collect the strings of its parent's summary-list items; no matching title
block gives the empty list. -/
def accompFamily (labels : List String) (soup : Node) :
    Except PyError (List (Option String)) :=
  match findAccomp soup with
  | none => .error (.attributeError "NoneType object has no attribute find_all")
  | some tag =>
      let titles := (elemParents tag).filter
        (fun pr => matchesClass "pv-accomplishments-block__title" pr.1)
      match titles.find? (fun pr =>
          match nodeString pr.1 with
          | some s => labels.contains s
          | none => false) with
      | none => .ok []
      | some pr =>
          .ok ((findAllClass "pv-accomplishments-block__summary-list-item" pr.2).map nodeString)

/-- Translation of `Profile.get_languages` (lines 235-252). -/
def Profile.get_languages (soup : Node) : Except PyError (List (Option String)) :=
  accompFamily ["Language", "Languages"] soup

/-- Translation of `Profile.get_projects` (lines 272-287). -/
def Profile.get_projects (soup : Node) : Except PyError (List (Option String)) :=
  accompFamily ["Project", "Projects"] soup

/-- Translation of `Profile.get_awards` (lines 289-304). -/
def Profile.get_awards (soup : Node) : Except PyError (List (Option String)) :=
  accompFamily ["Honors & Awards", "Award"] soup

/-- Translation of `Profile.get_organizations` (lines 306-321). -/
def Profile.get_organizations (soup : Node) : Except PyError (List (Option String)) :=
  accompFamily ["Organizations", "Organization"] soup

/-- Translation of `Profile.get_courses` (lines 323-338). -/
def Profile.get_courses (soup : Node) : Except PyError (List (Option String)) :=
  accompFamily ["Courses", "Course"] soup

/-- Translation of `Profile.get_certification` (lines 254-270): `return 0` is
the first statement of the body, so the whole accomplishments scan after it is
dead code and the function is the constant 0. -/
def Profile.get_certification (_soup : Node) : Nat := 0

/-- What the dead lookup of `get_certification` (lines 260-270) would compute
were the early `return 0` removed; it is never reached. -/
def certificationDeadLookup (soup : Node) : Except PyError (List (Option String)) :=
  accompFamily ["Certification", "Certifications"] soup

/-- A `Profile` instance: the immutable parsed document together with one
cache slot per memoized accessor.  Slot `none` models the instance attribute
not existing yet (`hasattr` false); `some v` models the attribute holding the
cached value `v` (which may itself be Python `None`). -/
structure ProfileState where
  soup : Node
  nameCache : Option (Option String) := none
  skillsCache : Option (List String) := none
  usernameCache : Option String := none
  locationCache : Option (Option String) := none
  currentCompanyCache : Option (Option String) := none
  allCompaniesCache : Option (List (Option String)) := none
  connectionCountCache : Option (Option Nat) := none

/-- The `cache(cache_var)` decorator (lines 8-34) as explicit state passing:
if the cache slot is set, return it untouched; otherwise run the wrapped
body — which may itself touch the state and may raise, in which case nothing
is stored — and store a successful result in the slot. -/
def runCached {β : Type} (get : ProfileState → Option β)
    (set : ProfileState → β → ProfileState)
    (compute : ProfileState → Except PyError β × ProfileState)
    (st : ProfileState) : Except PyError β × ProfileState :=
  match get st with
  | some v => (.ok v, st)
  | none =>
      match compute st with
      | (.ok v, st') => (.ok v, set st' v)
      | (.error e, st') => (.error e, st')

/-- The memoized `name` property on an instance. -/
def nameM (st : ProfileState) : Except PyError (Option String) × ProfileState :=
  runCached (fun s => s.nameCache) (fun s v => { s with nameCache := some v })
    (fun s => (Profile.name s.soup, s)) st

/-- The memoized `skills` property on an instance. -/
def skillsM (st : ProfileState) : Except PyError (List String) × ProfileState :=
  runCached (fun s => s.skillsCache) (fun s v => { s with skillsCache := some v })
    (fun s => (Profile.skills s.soup, s)) st

/-- The memoized `username` property on an instance. -/
def usernameM (st : ProfileState) : Except PyError String × ProfileState :=
  runCached (fun s => s.usernameCache) (fun s v => { s with usernameCache := some v })
    (fun s => (Profile.username s.soup, s)) st

/-- The memoized `location` property on an instance. -/
def locationM (st : ProfileState) : Except PyError (Option String) × ProfileState :=
  runCached (fun s => s.locationCache) (fun s v => { s with locationCache := some v })
    (fun s => (.ok (Profile.location s.soup), s)) st

/-- The memoized `all_companies` property on an instance. -/
def allCompaniesM (st : ProfileState) :
    Except PyError (List (Option String)) × ProfileState :=
  runCached (fun s => s.allCompaniesCache)
    (fun s v => { s with allCompaniesCache := some v })
    (fun s => (.ok (Profile.all_companies s.soup), s)) st

/-- The memoized `current_company` property on an instance.  Its body reads
`self.all_companies` through the memoized property, so computing it can also
populate the `all_companies` cache slot. -/
def currentCompanyM (st : ProfileState) :
    Except PyError (Option String) × ProfileState :=
  runCached (fun s => s.currentCompanyCache)
    (fun s v => { s with currentCompanyCache := some v })
    (fun s =>
      match findAttrEq "data-section" "currentPositionsDetails" s.soup with
      | some companyTag =>
          match findClass "org" companyTag with
          | some org => (.ok (nodeString org), s)
          | none => (.error (.attributeError "NoneType object has no attribute string"), s)
      | none =>
          match allCompaniesM s with
          | (.ok (c :: _), s') => (.ok c, s')
          | (.ok [], s') =>
              match findClass "headline title" s.soup with
              | some h => (.ok (nodeString h), s')
              | none => (.ok none, s')
          | (.error e, s') => (.error e, s')) st

/-- The memoized `connection_count` property on an instance. -/
def connectionCountM (st : ProfileState) :
    Except PyError (Option Nat) × ProfileState :=
  runCached (fun s => s.connectionCountCache)
    (fun s v => { s with connectionCountCache := some v })
    (fun s => (.ok (Profile.connection_count s.soup), s)) st

/-- Cache coherence: every populated slot holds exactly what the pure accessor
computes from the instance's document.  A fresh instance (all slots empty)
satisfies it vacuously, and every memoized accessor preserves it. -/
def Consistent (st : ProfileState) : Prop :=
  (∀ v, st.nameCache = some v → Profile.name st.soup = .ok v) ∧
  (∀ v, st.skillsCache = some v → Profile.skills st.soup = .ok v) ∧
  (∀ v, st.usernameCache = some v → Profile.username st.soup = .ok v) ∧
  (∀ v, st.locationCache = some v → Profile.location st.soup = v) ∧
  (∀ v, st.currentCompanyCache = some v → Profile.current_company st.soup = .ok v) ∧
  (∀ v, st.allCompaniesCache = some v → Profile.all_companies st.soup = v) ∧
  (∀ v, st.connectionCountCache = some v → Profile.connection_count st.soup = v)

/-- Shorthand for a `div` element carrying only a class list. -/
def el (cls : List String) (children : List Node) : Node :=
  .elem "div" none (some cls) [] (toNL children)

/-- Shorthand for the document root produced by parsing. -/
def rootDoc (children : List Node) : Node :=
  .elem "[document]" none none [] (toNL children)

/-- Test document: the primary top-card name element with text. -/
def docNamePrimary : Node :=
  rootDoc [el ["pv-top-card-section__name", "Sans-26px-black-85%"] [.text "Jane Doe"]]

/-- Test document: no top-card name, but an element with `id="name"`. -/
def docNameFallback : Node :=
  rootDoc [.elem "h1" (some "name") none [] (toNL [.text "Bob Ross"])]

/-- Test document: empty page. -/
def docEmpty : Node :=
  rootDoc []

/-- Test document: the primary name element holds two nested elements (so its
BeautifulSoup string is `None`), and an id fallback is also present. -/
def docNameNested : Node :=
  rootDoc
    [el ["pv-top-card-section__name", "Sans-26px-black-85%"]
      [el [] [.text "Jane"], el [] [.text "Doe"]],
     .elem "h1" (some "name") none [] (toNL [.text "Fallback Name"])]

/-- Test document: a current-positions section without any `org` descendant,
although both later fallbacks (experience list, headline) are present. -/
def docNoOrg : Node :=
  rootDoc
    [.elem "section" none none [("data-section", "currentPositionsDetails")]
       (toNL [.text "WidgetCo"]),
     el ["positions"] [el ["item-subtitle"] [.text "Acme"]],
     el ["headline", "title"] [.text "Engineer"]]

/-- Test document: a current-positions section with an `org` descendant. -/
def docOrg : Node :=
  rootDoc
    [.elem "section" none none [("data-section", "currentPositionsDetails")]
      (toNL [el ["org"] [.text "  Acme Corp\n"]])]

/-- Test document: no current-positions section, one experience entry. -/
def docExperience : Node :=
  rootDoc [el ["positions"] [el ["item-subtitle"] [.text "Acme"]]]

/-- Test document: only a headline/title element. -/
def docHeadline : Node :=
  rootDoc [el ["headline", "title"] [.text "Engineer at X"]]

/-- Test document: a skills section with one ordinary entry, one entry flagged
see-more and one flagged see-less. -/
def docSkills : Node :=
  rootDoc
    [el ["pv-skill-entity__skill-name"] [.text "  Python "],
     el ["pv-skill-entity__skill-name", "see-more"] [.text "See 5+"],
     el ["pv-skill-entity__skill-name", "see-less"] [.text "See less"]]

/-- Test document: a connections block whose only fragment is `"500+"`. -/
def docConn500 : Node :=
  rootDoc [el ["member-connections"] [.text "500+"]]

/-- Test document: a connections block whose only fragment is `"37"`. -/
def docConn37 : Node :=
  rootDoc [el ["member-connections"] [.text "37"]]

/-- Test document: a present but empty connections block. -/
def docConnEmpty : Node :=
  rootDoc [el ["member-connections"] []]

/-- Test document: a media subheadline with text `"1,234 media"`. -/
def docMedia : Node :=
  rootDoc [el ["pv-treasury-carousel__subheadline"] [.text "1,234 media"]]

/-- A fresh instance on the primary-name document: no cache slot populated. -/
def stFresh : ProfileState :=
  { soup := docNamePrimary }

/-- The instance after the first successful `name` access has filled the slot. -/
def stNamed : ProfileState :=
  { soup := docNamePrimary, nameCache := some (some "Jane Doe") }

/-- An instance on the empty page whose `all_companies` slot was already
populated (with a value the empty page could not produce), to observe that
`current_company` reads the cached list. -/
def stACached : ProfileState :=
  { soup := docEmpty, allCompaniesCache := some [some "CachedCo"] }

/-- The value of a text fragment in the connection scan, read off the claim:
a pure digit string denotes its integer value, the literal `"500+"` denotes
500, anything else nothing. -/
def fragValue (s : String) : Option Nat :=
  if pyIsDigit s then some (pyInt s) else if s == "500+" then some 500 else none

/-- A cache hit returns the stored value and leaves the instance untouched,
whatever the wrapped body is. -/
theorem runCached_hit {β : Type} (get : ProfileState → Option β)
    (set : ProfileState → β → ProfileState)
    (compute : ProfileState → Except PyError β × ProfileState)
    (st : ProfileState) (v : β) (h : get st = some v) :
    runCached get set compute st = (.ok v, st) := by
  unfold runCached
  rw [h]

/-- After a successful cached access, the slot holds the returned value
(provided reading back a stored value yields it, which every slot satisfies). -/
theorem runCached_ok_get {β : Type} (get : ProfileState → Option β)
    (set : ProfileState → β → ProfileState)
    (compute : ProfileState → Except PyError β × ProfileState)
    (st st' : ProfileState) (v : β)
    (hset : ∀ s w, get (set s w) = some w)
    (h : runCached get set compute st = (.ok v, st')) : get st' = some v := by
  unfold runCached at h
  cases hg : get st with
  | some w =>
      rw [hg] at h
      injection h with h1 h2
      injection h1 with h1
      subst h1 h2
      exact hg
  | none =>
      rw [hg] at h
      rcases hc : compute st with ⟨r, s1⟩
      rw [hc] at h
      cases r with
      | ok w =>
          injection h with h1 h2
          injection h1 with h1
          subst h1 h2
          exact hset _ _
      | error e =>
          injection h with h1 h2
          exact absurd h1 (by simp)

/-- The second access is free: a successful cached access followed by any
second access — even one whose wrapped body is a different function — returns
the same value and does not change the instance. -/
theorem runCached_stable {β : Type} (get : ProfileState → Option β)
    (set : ProfileState → β → ProfileState)
    (compute compute₂ : ProfileState → Except PyError β × ProfileState)
    (st st' : ProfileState) (v : β)
    (hset : ∀ s w, get (set s w) = some w)
    (h : runCached get set compute st = (.ok v, st')) :
    runCached get set compute₂ st' = (.ok v, st') :=
  runCached_hit get set compute₂ st' v
    (runCached_ok_get get set compute st st' v hset h)

/-- A cache miss whose body succeeds returns the computed value and stores it. -/
theorem runCached_miss_ok {β : Type} (get : ProfileState → Option β)
    (set : ProfileState → β → ProfileState)
    (compute : ProfileState → Except PyError β × ProfileState)
    (st s1 : ProfileState) (v : β)
    (hg : get st = none) (hc : compute st = (.ok v, s1)) :
    runCached get set compute st = (.ok v, set s1 v) := by
  unfold runCached
  rw [hg, hc]

/-- A cache miss whose body raises propagates the error and stores nothing. -/
theorem runCached_miss_error {β : Type} (get : ProfileState → Option β)
    (set : ProfileState → β → ProfileState)
    (compute : ProfileState → Except PyError β × ProfileState)
    (st s1 : ProfileState) (e : PyError)
    (hg : get st = none) (hc : compute st = (.error e, s1)) :
    runCached get set compute st = (.error e, s1) := by
  unfold runCached
  rw [hg, hc]

/-- C1: the `name` accessor tries the composite-class element first and
returns its string; only when that pattern matches nothing does it try the
`id="name"` element; when neither pattern matches, it raises the
distinguishable required-field `TypeError` instead of returning an absent
value. -/
theorem name_lookup_order (soup : Node) :
    (∀ n, findClass "pv-top-card-section__name Sans-26px-black-85%" soup = some n →
      Profile.name soup = .ok (nodeString n)) ∧
    (∀ n, findClass "pv-top-card-section__name Sans-26px-black-85%" soup = none →
      findId "name" soup = some n → Profile.name soup = .ok (nodeString n)) ∧
    (findClass "pv-top-card-section__name Sans-26px-black-85%" soup = none →
      findId "name" soup = none →
      Profile.name soup = .error (.typeError "Name not found in profile HTML")) := by
  refine ⟨?_, ?_, ?_⟩
  · intro n h
    simp [Profile.name, h]
  · intro n h1 h2
    simp [Profile.name, h1, h2]
  · intro h1 h2
    simp [Profile.name, h1, h2]

/-- Witness for C1 on concrete documents: primary hit, id fallback, and the
required-field error. -/
theorem name_lookup_order_witness :
    Profile.name docNamePrimary = .ok (some "Jane Doe") ∧
    Profile.name docNameFallback = .ok (some "Bob Ross") ∧
    Profile.name docEmpty = .error (.typeError "Name not found in profile HTML") :=
  ⟨(name_lookup_order docNamePrimary).1 _ rfl,
   (name_lookup_order docNameFallback).2.1 _ rfl rfl,
   (name_lookup_order docEmpty).2.2 rfl rfl⟩

/-- C9: when the primary name element exists but has no single string (it
contains nested elements), `name` returns `None` — it neither raises the
required-field error nor consults the id fallback. -/
theorem name_primary_without_string (soup n : Node)
    (h1 : findClass "pv-top-card-section__name Sans-26px-black-85%" soup = some n)
    (h2 : nodeString n = none) :
    Profile.name soup = .ok none := by
  simp [Profile.name, h1, h2]

/-- Witness for C9: the nested-elements document (which even carries a usable
id fallback) yields `None`. -/
theorem name_primary_without_string_witness :
    Profile.name docNameNested = .ok none :=
  name_primary_without_string docNameNested _ rfl rfl

/-- C10: a current-positions section without an `org` descendant makes
`current_company` raise the null-dereference `AttributeError` instead of
falling through to the experience / headline / `None` alternatives. -/
theorem current_company_missing_org_raises (soup tag : Node)
    (h1 : findAttrEq "data-section" "currentPositionsDetails" soup = some tag)
    (h2 : findClass "org" tag = none) :
    Profile.current_company soup =
      .error (.attributeError "NoneType object has no attribute string") := by
  simp [Profile.current_company, h1, h2]

/-- Witness for C10: the section-without-org document raises even though the
experience and headline fallbacks are present in it. -/
theorem current_company_missing_org_raises_witness :
    Profile.current_company docNoOrg =
      .error (.attributeError "NoneType object has no attribute string") :=
  current_company_missing_org_raises docNoOrg _ rfl rfl

/-- C3: `current_company` cascades through four alternatives in order — the
current-positions section's `org` string, the first entry of `all_companies`
when that list is non-empty, the `headline title` element's string, and
finally `None`. -/
theorem current_company_fallback_order (soup : Node) :
    (∀ tag org, findAttrEq "data-section" "currentPositionsDetails" soup = some tag →
      findClass "org" tag = some org →
      Profile.current_company soup = .ok (nodeString org)) ∧
    (findAttrEq "data-section" "currentPositionsDetails" soup = none →
      Profile.all_companies soup ≠ [] →
      Profile.current_company soup = .ok ((Profile.all_companies soup).headD none)) ∧
    (∀ h, findAttrEq "data-section" "currentPositionsDetails" soup = none →
      Profile.all_companies soup = [] → findClass "headline title" soup = some h →
      Profile.current_company soup = .ok (nodeString h)) ∧
    (findAttrEq "data-section" "currentPositionsDetails" soup = none →
      Profile.all_companies soup = [] → findClass "headline title" soup = none →
      Profile.current_company soup = .ok none) ∧
    (∀ (st : ProfileState) (c : Option String) (rest : List (Option String)),
      st.soup = soup → st.currentCompanyCache = none →
      st.allCompaniesCache = some (c :: rest) →
      findAttrEq "data-section" "currentPositionsDetails" soup = none →
      (currentCompanyM st).1 = .ok c) := by
  refine ⟨?_, ?_, ?_, ?_, ?_⟩
  · intro tag org h1 h2
    simp [Profile.current_company, h1, h2]
  · intro h1 h2
    cases hl : Profile.all_companies soup with
    | nil => exact absurd hl h2
    | cons c rest => simp [Profile.current_company, h1, hl]
  · intro h h1 h2 h3
    simp [Profile.current_company, h1, h2, h3]
  · intro h1 h2 h3
    simp [Profile.current_company, h1, h2, h3]
  · intro st c rest hsoup hcc hac hds
    have hACrun : allCompaniesM st = (.ok (c :: rest), st) := by
      unfold allCompaniesM
      exact runCached_hit _ _ _ st _ hac
    have hrun : currentCompanyM st = (.ok c, { st with currentCompanyCache := some c }) := by
      unfold currentCompanyM
      refine runCached_miss_ok _ _ _ st st c hcc ?_
      simp only [hsoup, hds, hACrun]
    rw [hrun]

/-- Witness for C3: one concrete document per branch of the cascade, plus an
instance whose pre-populated `all_companies` slot supplies alternative (b). -/
theorem current_company_fallback_order_witness :
    Profile.current_company docOrg = .ok (some "  Acme Corp\n") ∧
    Profile.current_company docExperience = .ok (some "Acme") ∧
    Profile.current_company docHeadline = .ok (some "Engineer at X") ∧
    Profile.current_company docEmpty = .ok none ∧
    (currentCompanyM stACached).1 = .ok (some "CachedCo") :=
  ⟨(current_company_fallback_order docOrg).1 _ _ rfl rfl,
   (current_company_fallback_order docExperience).2.1 rfl (by decide),
   (current_company_fallback_order docHeadline).2.2.1 _ rfl rfl rfl,
   (current_company_fallback_order docEmpty).2.2.2.1 rfl rfl rfl,
   (current_company_fallback_order docEmpty).2.2.2.2 stACached (some "CachedCo") [] rfl rfl rfl rfl⟩

/-- C4: with no accomplishments container of either spelling, every
accessor of the accomplishments family raises the propagated null-dereference
`AttributeError` (no soft empty list); with no canonical link element,
`username` raises the propagated `IndexError`. -/
theorem missing_structure_propagates (soup : Node) :
    (findAccomp soup = none →
      Profile.get_languages soup =
        .error (.attributeError "NoneType object has no attribute find_all") ∧
      Profile.get_courses soup =
        .error (.attributeError "NoneType object has no attribute find_all") ∧
      Profile.get_awards soup =
        .error (.attributeError "NoneType object has no attribute find_all") ∧
      Profile.get_organizations soup =
        .error (.attributeError "NoneType object has no attribute find_all") ∧
      Profile.get_projects soup =
        .error (.attributeError "NoneType object has no attribute find_all")) ∧
    ((subElems soup).filter isCanonicalLink = [] →
      Profile.username soup = .error (.indexError "list index out of range")) := by
  constructor
  · intro h
    refine ⟨?_, ?_, ?_, ?_, ?_⟩ <;>
      simp [Profile.get_languages, Profile.get_courses, Profile.get_awards,
        Profile.get_organizations, Profile.get_projects, accompFamily, h]
  · intro h
    simp [Profile.username, h]

/-- Witness for C4: the empty page has neither container nor canonical link,
and every listed accessor raises. -/
theorem missing_structure_propagates_witness :
    (Profile.get_languages docEmpty =
        .error (.attributeError "NoneType object has no attribute find_all") ∧
      Profile.get_courses docEmpty =
        .error (.attributeError "NoneType object has no attribute find_all") ∧
      Profile.get_awards docEmpty =
        .error (.attributeError "NoneType object has no attribute find_all") ∧
      Profile.get_organizations docEmpty =
        .error (.attributeError "NoneType object has no attribute find_all") ∧
      Profile.get_projects docEmpty =
        .error (.attributeError "NoneType object has no attribute find_all")) ∧
    Profile.username docEmpty = .error (.indexError "list index out of range") :=
  ⟨(missing_structure_propagates docEmpty).1 rfl,
   (missing_structure_propagates docEmpty).2 rfl⟩

/-- C7: `get_certification` returns the constant sentinel 0 on every document
and its result never depends on the document (the lookup after `return 0` is
dead code). -/
theorem certification_constant_sentinel (soup other : Node) :
    Profile.get_certification soup = 0 ∧
    Profile.get_certification soup = Profile.get_certification other :=
  ⟨rfl, rfl⟩

/-- The skills loop equals filtering by the skip test and sanitizing each
survivor, whenever every surviving candidate has a single string. -/
theorem skillsLoop_filter_map (l : List Node) :
    ∀ texts : List String, (l.filter keepSkill).map nodeString = texts.map some →
      skillsLoop l = .ok (texts.map (fun s => pyStrip (pyLower s))) := by
  induction l with
  | nil =>
      intro texts h
      simp only [List.filter_nil, List.map_nil] at h
      have : texts = [] := by
        cases texts with
        | nil => rfl
        | cons t ts => simp at h
      subst this
      simp [skillsLoop]
  | cons skill rest ih =>
      intro texts h
      cases hk : keepSkill skill with
      | false =>
          rw [List.filter_cons_of_neg (by simp [hk])] at h
          simpa [skillsLoop, hk] using ih texts h
      | true =>
          rw [List.filter_cons_of_pos (by simp [hk])] at h
          cases texts with
          | nil => simp at h
          | cons t ts =>
              simp only [List.map_cons, List.cons.injEq] at h
              obtain ⟨hhd, htl⟩ := h
              have htail := ih ts htl
              simp [skillsLoop, hk, sanitizeSkill, hhd, htail]

/-- C5: `skills` scans the primary-class candidates (falling back to the
`skill` class when the primary yields none), skips every see-more / see-less
flagged candidate, and returns the survivors' strings lowercased and
stripped in document order; with no candidates at all the result is the
empty list. -/
theorem skills_filter_and_sanitize (soup : Node) :
    (∀ texts : List String,
      ((skillsCandidates soup).filter keepSkill).map nodeString = texts.map some →
      Profile.skills soup = .ok (texts.map (fun s => pyStrip (pyLower s)))) ∧
    (findAllClass "pv-skill-entity__skill-name" soup ≠ [] →
      skillsCandidates soup = findAllClass "pv-skill-entity__skill-name" soup) ∧
    (findAllClass "pv-skill-entity__skill-name" soup = [] →
      skillsCandidates soup = findAllClass "skill" soup) ∧
    (findAllClass "pv-skill-entity__skill-name" soup = [] →
      findAllClass "skill" soup = [] → Profile.skills soup = .ok []) := by
  refine ⟨?_, ?_, ?_, ?_⟩
  · intro texts h
    exact skillsLoop_filter_map _ texts h
  · intro h
    cases hp : findAllClass "pv-skill-entity__skill-name" soup with
    | nil => exact absurd hp h
    | cons a l => simp [skillsCandidates, hp]
  · intro h
    simp [skillsCandidates, h]
  · intro h1 h2
    simp [Profile.skills, skillsCandidates, h1, h2, skillsLoop]

/-- Witness for C5: the section with one ordinary, one see-more and one
see-less entry yields only the ordinary entry lowercased and trimmed, and
the empty page yields the empty list. -/
theorem skills_filter_and_sanitize_witness :
    Profile.skills docSkills = .ok ["python"] ∧
    Profile.skills docEmpty = .ok [] :=
  ⟨(skills_filter_and_sanitize docSkills).1 ["  Python "] rfl,
   (skills_filter_and_sanitize docEmpty).2.2.2 rfl rfl⟩

/-- The connection fragment scan is a last-match-wins rule: folding the
overwrite step equals taking the last fragment value, with the accumulator as
the default. -/
theorem connFold_eq_getLastD (l : List String) :
    ∀ a : Nat,
      l.foldl (fun cons s =>
        if pyIsDigit s then pyInt s else if s == "500+" then 500 else cons) a
        = (l.filterMap fragValue).getLastD a := by
  induction l with
  | nil => intro a; rfl
  | cons s rest ih =>
      intro a
      simp only [List.foldl_cons]
      by_cases hd : pyIsDigit s = true
      · have hf : fragValue s = some (pyInt s) := by simp [fragValue, hd]
        rw [List.filterMap_cons_some hf, List.getLastD_cons, if_pos hd, ih]
      · by_cases h5 : s = "500+"
        · subst h5
          have hb : (("500+" : String) == "500+") = true := by simp
          have hf : fragValue "500+" = some 500 := by simp [fragValue, hd]
          rw [List.filterMap_cons_some hf, List.getLastD_cons, if_neg hd,
            if_pos hb, ih]
        · have hb : ¬((s == "500+") = true) := by simp [h5]
          have hf : fragValue s = none := by simp [fragValue, hd, h5]
          rw [List.filterMap_cons_none hf, if_neg hd, if_neg hb, ih]

/-- C6: `connection_count` is `None` with no connections element; otherwise it
is the value of the last fragment inside the element that is purely digits
(its integer value) or the literal `"500+"` (value 500), and 0 when no
fragment matches. -/
theorem connection_count_last_match (soup : Node) :
    (findClass "member-connections" soup = none →
      Profile.connection_count soup = none) ∧
    (∀ conn, findClass "member-connections" soup = some conn →
      Profile.connection_count soup =
        some (((stringsOf conn).filterMap fragValue).getLastD 0)) := by
  constructor
  · intro h
    simp [Profile.connection_count, h]
  · intro conn h
    unfold Profile.connection_count
    rw [h]
    exact congrArg some (connFold_eq_getLastD (stringsOf conn) 0)

/-- Witness for C6: the four behaviours of the spec's test scenarios —
`["500+"]` gives 500, `["37"]` gives 37, an absent block gives `None`, a
present empty block gives 0. -/
theorem connection_count_last_match_witness :
    Profile.connection_count docConn500 = some 500 ∧
    Profile.connection_count docConn37 = some 37 ∧
    Profile.connection_count docConnEmpty = some 0 ∧
    Profile.connection_count docEmpty = none :=
  ⟨(connection_count_last_match docConn500).2 _ rfl,
   (connection_count_last_match docConn37).2 _ rfl,
   (connection_count_last_match docConnEmpty).2 _ rfl,
   (connection_count_last_match docEmpty).1 rfl⟩

/-- Skipping non-digits in a character fold is folding over the digit
characters only. -/
theorem mediaFold_digits_only (l : List Char) :
    ∀ a : Nat,
      l.foldl (fun v c => if c.isDigit then v * 10 + (c.toNat - 48) else v) a
        = (l.filter Char.isDigit).foldl (fun v c => v * 10 + (c.toNat - 48)) a := by
  induction l with
  | nil => intro a; rfl
  | cons c rest ih =>
      intro a
      by_cases hc : c.isDigit = true
      · simp [List.foldl_cons, List.filter_cons, hc, ih]
      · simp [List.foldl_cons, List.filter_cons, hc, ih]

/-- C8: when the media subheadline exists with string `t`, `get_media_number`
folds `value*10 + digit` over exactly the digit characters of `t` (all other
characters ignored); when the element is absent it returns the empty string
rather than a number. -/
theorem media_number_digit_scan (soup : Node) :
    (findClass "pv-treasury-carousel__subheadline" soup = none →
      Profile.get_media_number soup = .ok (.str "")) ∧
    (∀ t s, findClass "pv-treasury-carousel__subheadline" soup = some t →
      nodeString t = some s →
      Profile.get_media_number soup = .ok (.num (mediaFold s)) ∧
      mediaFold s =
        (s.toList.filter Char.isDigit).foldl (fun v c => v * 10 + (c.toNat - 48)) 0) := by
  constructor
  · intro h
    simp [Profile.get_media_number, h]
  · intro t s h1 h2
    constructor
    · simp [Profile.get_media_number, h1, h2]
    · exact mediaFold_digits_only s.toList 0

/-- Witness for C8: text `"1,234 media"` yields 1234 (commas and letters
ignored), and the empty page yields the empty string. -/
theorem media_number_digit_scan_witness :
    Profile.get_media_number docMedia = .ok (.num 1234) ∧
    Profile.get_media_number docEmpty = .ok (.str "") :=
  ⟨((media_number_digit_scan docMedia).2 _ "1,234 media" rfl rfl).1,
   (media_number_digit_scan docEmpty).1 rfl⟩

/-- Accessing `name` through the cache returns the pure value and preserves
cache coherence. -/
theorem nameM_consistent (st : ProfileState) (h : Consistent st) :
    (nameM st).1 = Profile.name st.soup ∧ (nameM st).2.soup = st.soup ∧
      Consistent (nameM st).2 := by
  obtain ⟨h1, h2, h3, h4, h5, h6, h7⟩ := h
  cases hg : st.nameCache with
  | some v =>
      have hrun : nameM st = (.ok v, st) := by
        unfold nameM
        exact runCached_hit _ _ _ st v hg
      rw [hrun]
      exact ⟨(h1 v hg).symm, rfl, h1, h2, h3, h4, h5, h6, h7⟩
  | none =>
      cases he : Profile.name st.soup with
      | ok v =>
          have hrun : nameM st = (.ok v, { st with nameCache := some v }) := by
            unfold nameM
            exact runCached_miss_ok _ _ _ st st v hg (by simp only [he])
          rw [hrun]
          refine ⟨rfl, rfl, ?_, h2, h3, h4, h5, h6, h7⟩
          intro w hw
          have hw2 : v = w := Option.some.inj hw
          rw [← hw2]
          exact he
      | error e =>
          have hrun : nameM st = (.error e, st) := by
            unfold nameM
            exact runCached_miss_error _ _ _ st st e hg (by simp only [he])
          rw [hrun]
          exact ⟨rfl, rfl, h1, h2, h3, h4, h5, h6, h7⟩

/-- Accessing `skills` through the cache returns the pure value and preserves
cache coherence. -/
theorem skillsM_consistent (st : ProfileState) (h : Consistent st) :
    (skillsM st).1 = Profile.skills st.soup ∧ (skillsM st).2.soup = st.soup ∧
      Consistent (skillsM st).2 := by
  obtain ⟨h1, h2, h3, h4, h5, h6, h7⟩ := h
  cases hg : st.skillsCache with
  | some v =>
      have hrun : skillsM st = (.ok v, st) := by
        unfold skillsM
        exact runCached_hit _ _ _ st v hg
      rw [hrun]
      exact ⟨(h2 v hg).symm, rfl, h1, h2, h3, h4, h5, h6, h7⟩
  | none =>
      cases he : Profile.skills st.soup with
      | ok v =>
          have hrun : skillsM st = (.ok v, { st with skillsCache := some v }) := by
            unfold skillsM
            exact runCached_miss_ok _ _ _ st st v hg (by simp only [he])
          rw [hrun]
          refine ⟨rfl, rfl, h1, ?_, h3, h4, h5, h6, h7⟩
          intro w hw
          have hw2 : v = w := Option.some.inj hw
          rw [← hw2]
          exact he
      | error e =>
          have hrun : skillsM st = (.error e, st) := by
            unfold skillsM
            exact runCached_miss_error _ _ _ st st e hg (by simp only [he])
          rw [hrun]
          exact ⟨rfl, rfl, h1, h2, h3, h4, h5, h6, h7⟩

/-- Accessing `username` through the cache returns the pure value and
preserves cache coherence. -/
theorem usernameM_consistent (st : ProfileState) (h : Consistent st) :
    (usernameM st).1 = Profile.username st.soup ∧ (usernameM st).2.soup = st.soup ∧
      Consistent (usernameM st).2 := by
  obtain ⟨h1, h2, h3, h4, h5, h6, h7⟩ := h
  cases hg : st.usernameCache with
  | some v =>
      have hrun : usernameM st = (.ok v, st) := by
        unfold usernameM
        exact runCached_hit _ _ _ st v hg
      rw [hrun]
      exact ⟨(h3 v hg).symm, rfl, h1, h2, h3, h4, h5, h6, h7⟩
  | none =>
      cases he : Profile.username st.soup with
      | ok v =>
          have hrun : usernameM st = (.ok v, { st with usernameCache := some v }) := by
            unfold usernameM
            exact runCached_miss_ok _ _ _ st st v hg (by simp only [he])
          rw [hrun]
          refine ⟨rfl, rfl, h1, h2, ?_, h4, h5, h6, h7⟩
          intro w hw
          have hw2 : v = w := Option.some.inj hw
          rw [← hw2]
          exact he
      | error e =>
          have hrun : usernameM st = (.error e, st) := by
            unfold usernameM
            exact runCached_miss_error _ _ _ st st e hg (by simp only [he])
          rw [hrun]
          exact ⟨rfl, rfl, h1, h2, h3, h4, h5, h6, h7⟩

/-- Accessing `location` through the cache returns the pure value and
preserves cache coherence. -/
theorem locationM_consistent (st : ProfileState) (h : Consistent st) :
    (locationM st).1 = .ok (Profile.location st.soup) ∧
      (locationM st).2.soup = st.soup ∧ Consistent (locationM st).2 := by
  obtain ⟨h1, h2, h3, h4, h5, h6, h7⟩ := h
  cases hg : st.locationCache with
  | some v =>
      have hrun : locationM st = (.ok v, st) := by
        unfold locationM
        exact runCached_hit _ _ _ st v hg
      rw [hrun]
      exact ⟨congrArg Except.ok (h4 v hg).symm, rfl, h1, h2, h3, h4, h5, h6, h7⟩
  | none =>
      have hrun : locationM st = (.ok (Profile.location st.soup),
          { st with locationCache := some (Profile.location st.soup) }) := by
        unfold locationM
        exact runCached_miss_ok _ _ _ st st _ hg rfl
      rw [hrun]
      refine ⟨rfl, rfl, h1, h2, h3, ?_, h5, h6, h7⟩
      intro w hw
      exact Option.some.inj hw

/-- Accessing `all_companies` through the cache returns the pure value and
preserves cache coherence. -/
theorem allCompaniesM_consistent (st : ProfileState) (h : Consistent st) :
    (allCompaniesM st).1 = .ok (Profile.all_companies st.soup) ∧
      (allCompaniesM st).2.soup = st.soup ∧ Consistent (allCompaniesM st).2 := by
  obtain ⟨h1, h2, h3, h4, h5, h6, h7⟩ := h
  cases hg : st.allCompaniesCache with
  | some v =>
      have hrun : allCompaniesM st = (.ok v, st) := by
        unfold allCompaniesM
        exact runCached_hit _ _ _ st v hg
      rw [hrun]
      exact ⟨congrArg Except.ok (h6 v hg).symm, rfl, h1, h2, h3, h4, h5, h6, h7⟩
  | none =>
      have hrun : allCompaniesM st = (.ok (Profile.all_companies st.soup),
          { st with allCompaniesCache := some (Profile.all_companies st.soup) }) := by
        unfold allCompaniesM
        exact runCached_miss_ok _ _ _ st st _ hg rfl
      rw [hrun]
      refine ⟨rfl, rfl, h1, h2, h3, h4, h5, ?_, h7⟩
      intro w hw
      exact Option.some.inj hw

/-- Accessing `connection_count` through the cache returns the pure value and
preserves cache coherence. -/
theorem connectionCountM_consistent (st : ProfileState) (h : Consistent st) :
    (connectionCountM st).1 = .ok (Profile.connection_count st.soup) ∧
      (connectionCountM st).2.soup = st.soup ∧ Consistent (connectionCountM st).2 := by
  obtain ⟨h1, h2, h3, h4, h5, h6, h7⟩ := h
  cases hg : st.connectionCountCache with
  | some v =>
      have hrun : connectionCountM st = (.ok v, st) := by
        unfold connectionCountM
        exact runCached_hit _ _ _ st v hg
      rw [hrun]
      exact ⟨congrArg Except.ok (h7 v hg).symm, rfl, h1, h2, h3, h4, h5, h6, h7⟩
  | none =>
      have hrun : connectionCountM st = (.ok (Profile.connection_count st.soup),
          { st with connectionCountCache := some (Profile.connection_count st.soup) }) := by
        unfold connectionCountM
        exact runCached_miss_ok _ _ _ st st _ hg rfl
      rw [hrun]
      refine ⟨rfl, rfl, h1, h2, h3, h4, h5, h6, ?_⟩
      intro w hw
      exact Option.some.inj hw

/-- Accessing `current_company` through the cache returns the pure value and
preserves cache coherence, even though computing it may populate the
`all_companies` slot on the way. -/
theorem currentCompanyM_consistent (st : ProfileState) (h : Consistent st) :
    (currentCompanyM st).1 = Profile.current_company st.soup ∧
      (currentCompanyM st).2.soup = st.soup ∧ Consistent (currentCompanyM st).2 := by
  have hAC := allCompaniesM_consistent st h
  obtain ⟨h1, h2, h3, h4, h5, h6, h7⟩ := h
  cases hg : st.currentCompanyCache with
  | some v =>
      have hrun : currentCompanyM st = (.ok v, st) := by
        unfold currentCompanyM
        exact runCached_hit _ _ _ st v hg
      rw [hrun]
      exact ⟨(h5 v hg).symm, rfl, h1, h2, h3, h4, h5, h6, h7⟩
  | none =>
      cases hds : findAttrEq "data-section" "currentPositionsDetails" st.soup with
      | some tag =>
          have hpure0 : Profile.current_company st.soup =
              (match findClass "org" tag with
               | some org => .ok (nodeString org)
               | none => .error (.attributeError "NoneType object has no attribute string")) := by
            simp [Profile.current_company, hds]
          cases horg : findClass "org" tag with
          | some org =>
              have hpure : Profile.current_company st.soup = .ok (nodeString org) := by
                rw [hpure0, horg]
              have hrun : currentCompanyM st =
                  (.ok (nodeString org), { st with currentCompanyCache := some (nodeString org) }) := by
                unfold currentCompanyM
                exact runCached_miss_ok _ _ _ st st _ hg (by simp only [hds, horg])
              rw [hrun]
              refine ⟨hpure.symm, rfl, h1, h2, h3, h4, ?_, h6, h7⟩
              intro w hw
              have hw2 : nodeString org = w := Option.some.inj hw
              rw [← hw2]
              exact hpure
          | none =>
              have hpure : Profile.current_company st.soup =
                  .error (.attributeError "NoneType object has no attribute string") := by
                rw [hpure0, horg]
              have hrun : currentCompanyM st =
                  (.error (.attributeError "NoneType object has no attribute string"), st) := by
                unfold currentCompanyM
                exact runCached_miss_error _ _ _ st st _ hg (by simp only [hds, horg])
              rw [hrun]
              exact ⟨hpure.symm, rfl, h1, h2, h3, h4, h5, h6, h7⟩
      | none =>
          rcases hA : allCompaniesM st with ⟨r, s1⟩
          rw [hA] at hAC
          obtain ⟨hr, hsoup1, hc1⟩ := hAC
          have hr2 : r = .ok (Profile.all_companies st.soup) := hr
          subst hr2
          obtain ⟨g1, g2, g3, g4, g5, g6, g7⟩ := hc1
          cases hl : Profile.all_companies st.soup with
          | cons c rest =>
              have hpure : Profile.current_company st.soup = .ok c := by
                simp [Profile.current_company, hds, hl]
              have hrun : currentCompanyM st =
                  (.ok c, { s1 with currentCompanyCache := some c }) := by
                unfold currentCompanyM
                exact runCached_miss_ok _ _ _ st s1 c hg (by simp only [hA, hds, hl])
              rw [hrun]
              refine ⟨hpure.symm, hsoup1, g1, g2, g3, g4, ?_, g6, g7⟩
              intro w hw
              have hw2 : c = w := Option.some.inj hw
              rw [← hw2, hsoup1]
              exact hpure
          | nil =>
              cases hh : findClass "headline title" st.soup with
              | some hnode =>
                  have hpure : Profile.current_company st.soup = .ok (nodeString hnode) := by
                    simp [Profile.current_company, hds, hl, hh]
                  have hrun : currentCompanyM st =
                      (.ok (nodeString hnode),
                        { s1 with currentCompanyCache := some (nodeString hnode) }) := by
                    unfold currentCompanyM
                    exact runCached_miss_ok _ _ _ st s1 _ hg (by simp only [hA, hds, hl, hh])
                  rw [hrun]
                  refine ⟨hpure.symm, hsoup1, g1, g2, g3, g4, ?_, g6, g7⟩
                  intro w hw
                  have hw2 : nodeString hnode = w := Option.some.inj hw
                  rw [← hw2, hsoup1]
                  exact hpure
              | none =>
                  have hpure : Profile.current_company st.soup = .ok none := by
                    simp [Profile.current_company, hds, hl, hh]
                  have hrun : currentCompanyM st =
                      (.ok none, { s1 with currentCompanyCache := some none }) := by
                    unfold currentCompanyM
                    exact runCached_miss_ok _ _ _ st s1 _ hg (by simp only [hA, hds, hl, hh])
                  rw [hrun]
                  refine ⟨hpure.symm, hsoup1, g1, g2, g3, g4, ?_, g6, g7⟩
                  intro w hw
                  have hw2 : (none : Option String) = w := Option.some.inj hw
                  rw [← hw2, hsoup1]
                  exact hpure

/-- C2: every memoized accessor (name, skills, username, location,
current_company, all_companies, connection_count) is strictly memoized — after
a first successful call, a second call on the resulting instance returns the
identical stored value and leaves the instance untouched (the wrapped body is
not consulted again, by `runCached_stable` this holds for an arbitrary second
body) — and the accessors can be called in any order: from any cache-coherent
instance (in particular a fresh one) each accessor returns exactly the pure
value determined by the immutable document and preserves coherence. -/
theorem memoized_accessors (st : ProfileState) :
    ((∀ v st', nameM st = (.ok v, st') → nameM st' = (.ok v, st')) ∧
     (∀ v st', skillsM st = (.ok v, st') → skillsM st' = (.ok v, st')) ∧
     (∀ v st', usernameM st = (.ok v, st') → usernameM st' = (.ok v, st')) ∧
     (∀ v st', locationM st = (.ok v, st') → locationM st' = (.ok v, st')) ∧
     (∀ v st', currentCompanyM st = (.ok v, st') → currentCompanyM st' = (.ok v, st')) ∧
     (∀ v st', allCompaniesM st = (.ok v, st') → allCompaniesM st' = (.ok v, st')) ∧
     (∀ v st', connectionCountM st = (.ok v, st') → connectionCountM st' = (.ok v, st'))) ∧
    (Consistent st →
     ((nameM st).1 = Profile.name st.soup ∧ (nameM st).2.soup = st.soup ∧
        Consistent (nameM st).2) ∧
     ((skillsM st).1 = Profile.skills st.soup ∧ (skillsM st).2.soup = st.soup ∧
        Consistent (skillsM st).2) ∧
     ((usernameM st).1 = Profile.username st.soup ∧ (usernameM st).2.soup = st.soup ∧
        Consistent (usernameM st).2) ∧
     ((locationM st).1 = .ok (Profile.location st.soup) ∧ (locationM st).2.soup = st.soup ∧
        Consistent (locationM st).2) ∧
     ((currentCompanyM st).1 = Profile.current_company st.soup ∧
        (currentCompanyM st).2.soup = st.soup ∧ Consistent (currentCompanyM st).2) ∧
     ((allCompaniesM st).1 = .ok (Profile.all_companies st.soup) ∧
        (allCompaniesM st).2.soup = st.soup ∧ Consistent (allCompaniesM st).2) ∧
     ((connectionCountM st).1 = .ok (Profile.connection_count st.soup) ∧
        (connectionCountM st).2.soup = st.soup ∧ Consistent (connectionCountM st).2)) := by
  constructor
  · refine ⟨?_, ?_, ?_, ?_, ?_, ?_, ?_⟩
    · intro v st' h
      unfold nameM at h ⊢
      exact runCached_stable _ _ _ _ st st' v (fun s w => rfl) h
    · intro v st' h
      unfold skillsM at h ⊢
      exact runCached_stable _ _ _ _ st st' v (fun s w => rfl) h
    · intro v st' h
      unfold usernameM at h ⊢
      exact runCached_stable _ _ _ _ st st' v (fun s w => rfl) h
    · intro v st' h
      unfold locationM at h ⊢
      exact runCached_stable _ _ _ _ st st' v (fun s w => rfl) h
    · intro v st' h
      unfold currentCompanyM at h ⊢
      exact runCached_stable _ _ _ _ st st' v (fun s w => rfl) h
    · intro v st' h
      unfold allCompaniesM at h ⊢
      exact runCached_stable _ _ _ _ st st' v (fun s w => rfl) h
    · intro v st' h
      unfold connectionCountM at h ⊢
      exact runCached_stable _ _ _ _ st st' v (fun s w => rfl) h
  · intro hc
    exact ⟨nameM_consistent st hc, skillsM_consistent st hc, usernameM_consistent st hc,
      locationM_consistent st hc, currentCompanyM_consistent st hc,
      allCompaniesM_consistent st hc, connectionCountM_consistent st hc⟩

/-- Witness for C2 on a concrete fresh instance: the first `name` access
stores the value, the second access returns it with the instance unchanged,
and from the fresh (vacuously coherent) instance the accessor returns the
pure value and keeps coherence. -/
theorem memoized_accessors_witness :
    nameM stNamed = (.ok (some "Jane Doe"), stNamed) ∧
    (nameM stFresh).1 = Profile.name docNamePrimary ∧
    Consistent (nameM stFresh).2 :=
  ⟨(memoized_accessors stFresh).1.1 (some "Jane Doe") stNamed rfl,
   ((memoized_accessors stFresh).2
      ⟨nofun, nofun, nofun, nofun, nofun, nofun, nofun⟩).1.1,
   ((memoized_accessors stFresh).2
      ⟨nofun, nofun, nofun, nofun, nofun, nofun, nofun⟩).1.2.2⟩
